import Mathlib

/-!
Verification of the ShrivenQ memory subsystem (src/core/memory) against its
natural-language specification. The Rust sources are shallowly embedded as
executable Lean definitions: each allocator backend becomes a state structure
with pure transition functions, machine integers become `Nat` with explicit
wrapping modulo `2 ^ 64` wherever the source performs wrapping atomic
arithmetic, and fallible operations return `Except AllocError`.

Modelling conventions, shared by all backends:
* the process allocator (`std::alloc::alloc`) is modelled as always
  succeeding and handing out fresh nonzero abstract addresses from a
  `next_addr` counter, so `OutOfMemory` is unreachable in the model;
* wall-clock telemetry (`AllocationTimer`, `Instant`) is real time and is
  left out of the state; the latency ring itself is modelled over abstract
  nanosecond values fed to it;
* `tracing` log calls are modelled, where a claim depends on them, as
  returned boolean flags, and otherwise dropped (they do not affect state).
-/

namespace ShrivenQ

/-- Wrap-around modulus of the 64-bit machine words (usize / u64 on the
x86-64 target of the source tree). -/
def W64 : Nat := 2 ^ 64

/-- Largest value of `isize`, used by `Layout::from_size_align`. -/
def isizeMax : Nat := 2 ^ 63 - 1

/-- Wrapping 64-bit addition (`AtomicUsize::fetch_add` result register). -/
def wrapAdd (a b : Nat) : Nat := (a + b) % W64

/-- Wrapping 64-bit subtraction (`AtomicUsize::fetch_sub` result register). -/
def wrapSub (a b : Nat) : Nat := (a + (W64 - b % W64)) % W64

/-- Machine test `usize::is_power_of_two` (exactly one set bit). -/
def isPowerOfTwoNat (n : Nat) : Bool := n != 0 && (n &&& (n - 1)) == 0

/-- Rust `std::alloc::Layout`: a `(size, align)` request pair. -/
structure Layout where
  size : Nat
  align : Nat
deriving Repr, DecidableEq

/-- `Layout::from_size_align`: succeeds iff `align` is a power of two and
`size` does not overflow `isize::MAX` when rounded up to `align`. -/
def Layout.fromSizeAlign (size align : Nat) : Option Layout :=
  if isPowerOfTwoNat align && size ≤ isizeMax - (align - 1) then
    some ⟨size, align⟩
  else
    none

/-- Error taxonomy of `allocator.rs` (`AllocError`). -/
inductive AllocError where
  | OutOfMemory
  | InvalidLayout (reason : String)
  | NumaNodeUnavailable (id : Nat)
  | SizeExceeded (size max : Nat)
  | PoolExhausted
  | AlignmentNotSupported (required supported : Nat)
  | AlreadyInitialized
  | NotInitialized
  | UnsupportedOperation (reason : String)
deriving Repr, DecidableEq

/-! ## Hazard-pointer domain (`hazard_pointer.rs`)

Only the parts that `try_reclaim` reads are needed: the slot array and the
global retire queue. A slot's `pointer` is an address, with `0` standing for
the null pointer. -/

/-- One cache-aligned hazard slot (`HazardPointerSlot`). -/
structure HazardPointerSlot where
  pointer : Nat
  active : Bool
  owner_thread_id : Nat
deriving Repr, DecidableEq

/-- One retired allocation (`RetiredNode`); its deleter frees exactly
`ptr` with the recorded `(size, align)` layout. -/
structure RetiredNode where
  ptr : Nat
  size : Nat
  align : Nat
deriving Repr, DecidableEq

/-- The snapshot loop of `try_reclaim`: the published addresses of the
active slots, skipping null publications. -/
def hazardSetList (slots : List HazardPointerSlot) : List Nat :=
  (slots.filter (fun s => s.active && s.pointer != 0)).map (fun s => s.pointer)

/-- `HazardPointerDomain::try_reclaim`, acting on the snapshot of the slots
and the drained global retire queue. Returns `(requeued, freed)`: nodes whose
address is shadowed by a hazard are deferred and pushed back onto the global
queue in drain order; the deleters of all the others are run. -/
def tryReclaim (slots : List HazardPointerSlot) (retire : List RetiredNode) :
    List RetiredNode × List RetiredNode :=
  let hs := hazardSetList slots
  retire.partition (fun r => hs.contains r.ptr)

/-! ## Theorems for claim C1 -/

/-- C1: in the hazard-pointer domain, every reclamation pass frees only
addresses disjoint from those published in slots active at snapshot time: a
freed node's address differs from every active slot's non-null published
pointer, and a retired node whose address equals some active slot's published
pointer is re-queued, not freed. -/
theorem C1_reclaim_disjoint_from_hazards (slots : List HazardPointerSlot)
    (retire : List RetiredNode) :
    (∀ r ∈ (tryReclaim slots retire).2, ∀ s ∈ slots,
        s.active = true → s.pointer ≠ 0 → s.pointer ≠ r.ptr)
    ∧ (∀ r ∈ retire, r.ptr ∈ hazardSetList slots →
        r ∈ (tryReclaim slots retire).1 ∧ r ∉ (tryReclaim slots retire).2) := by
  unfold tryReclaim
  simp only [List.partition_eq_filter_filter]
  constructor
  · intro r hr s hs hact hnn hne
    rw [List.mem_filter] at hr
    have hcon : (hazardSetList slots).contains r.ptr = false := by
      simpa using hr.2
    have : r.ptr ∈ hazardSetList slots := by
      unfold hazardSetList
      rw [List.mem_map]
      exact ⟨s, List.mem_filter.mpr ⟨hs, by simp [hact, hnn]⟩, hne⟩
    have helem : List.elem r.ptr (hazardSetList slots) = true := List.elem_iff.mpr this
    have : List.contains (hazardSetList slots) r.ptr = true := helem
    rw [hcon] at this
    exact Bool.false_ne_true this
  · intro r hr hmem
    constructor
    · rw [List.mem_filter]
      exact ⟨hr, by simpa using hmem⟩
    · intro hcontra
      rw [List.mem_filter] at hcontra
      have : ¬ r.ptr ∈ hazardSetList slots := by simpa using hcontra.2
      exact this hmem

/-- Witness for C1: a concrete pass with one active slot protecting address 5
and two retired nodes, at addresses 5 (re-queued) and 6 (freed). -/
theorem C1_reclaim_disjoint_from_hazards_w :
    (∀ r ∈ (tryReclaim [⟨5, true, 1⟩] [⟨5, 16, 8⟩, ⟨6, 16, 8⟩]).2,
        ∀ s ∈ [(⟨5, true, 1⟩ : HazardPointerSlot)],
        s.active = true → s.pointer ≠ 0 → s.pointer ≠ r.ptr)
    ∧ (∀ r ∈ [(⟨5, 16, 8⟩ : RetiredNode), ⟨6, 16, 8⟩],
        r.ptr ∈ hazardSetList [⟨5, true, 1⟩] →
        r ∈ (tryReclaim [⟨5, true, 1⟩] [⟨5, 16, 8⟩, ⟨6, 16, 8⟩]).1
        ∧ r ∉ (tryReclaim [⟨5, true, 1⟩] [⟨5, 16, 8⟩, ⟨6, 16, 8⟩]).2) :=
  C1_reclaim_disjoint_from_hazards [⟨5, true, 1⟩] [⟨5, 16, 8⟩, ⟨6, 16, 8⟩]

/-! ## Lock-free chunk pool (`lock_free_pool.rs`)

The pool's private telemetry sink (`stats: Arc<MemoryStats>`) records
wall-clock latencies and does not influence any allocator result; it is kept
out of this state (the `MemoryStats` model appears further below). The
per-allocation hazard acquire/protect leaves no trace in the pool state
either: the handle is dropped, clearing and releasing its slot, before
`allocate_chunk` returns. -/

/-- `PoolConfig` of the lock-free pool. -/
structure PoolConfig where
  chunk_size : Nat
  initial_chunks : Nat
  max_chunks : Nat
  alignment : Nat
  zero_on_dealloc : Bool
  thread_cache_size : Nat
deriving Repr, DecidableEq

/-- `PoolConfig::default()`. -/
def PoolConfig.default : PoolConfig :=
  ⟨4096, 1024, 1000000, 64, false, 32⟩

/-- A free-list record `MemoryChunk { ptr, size, generation }`. -/
structure MemoryChunk where
  ptr : Nat
  size : Nat
  generation : Nat
deriving Repr, DecidableEq

/-- Sequential state of `LockFreeMemoryPool`. `free_chunks` is the MPMC
queue with its head at the front; `next_addr` models the OS allocator's
address source (fresh nonzero addresses). -/
structure LockFreeMemoryPool where
  config : PoolConfig
  free_chunks : List MemoryChunk
  allocated_count : Nat
  free_count : Nat
  total_memory : Nat
  generation : Nat
  next_addr : Nat
deriving Repr, DecidableEq

/-- The preallocation loop of `preallocate_chunks`: each iteration
OS-allocates one chunk (modelled as always succeeding), tags it with the
fetched generation counter value and enqueues it. -/
def LockFreeMemoryPool.preallocateLoop :
    Nat → LockFreeMemoryPool → LockFreeMemoryPool
  | 0, st => st
  | n + 1, st =>
      let chunk : MemoryChunk := ⟨st.next_addr, st.config.chunk_size, st.generation⟩
      LockFreeMemoryPool.preallocateLoop n
        { st with
          free_chunks := st.free_chunks ++ [chunk]
          generation := wrapAdd st.generation 1
          free_count := wrapAdd st.free_count 1
          total_memory := wrapAdd st.total_memory st.config.chunk_size
          next_addr := st.next_addr + 1 }

/-- `LockFreeMemoryPool::new`: the explicit guard rejects a `chunk_size`
that is simultaneously not a power of two and below the cache-line size;
`preallocate_chunks` then validates `Layout::from_size_align(chunk_size,
alignment)` and fills the free queue. With OS allocation modelled as total,
`OutOfMemory` is unreachable and the only failure is `InvalidLayout`. -/
def LockFreeMemoryPool.new (config : PoolConfig) :
    Except AllocError LockFreeMemoryPool :=
  if !isPowerOfTwoNat config.chunk_size && config.chunk_size < 64 then
    .error (.InvalidLayout "Chunk size must be power of 2 and >= cache line size")
  else
    match Layout.fromSizeAlign config.chunk_size config.alignment with
    | none => .error (.InvalidLayout "invalid parameters to Layout::from_size_align")
    | some _ =>
        .ok (LockFreeMemoryPool.preallocateLoop config.initial_chunks
          { config := config
            free_chunks := []
            allocated_count := 0
            free_count := 0
            total_memory := 0
            generation := 0
            next_addr := 1 })

/-- `LockFreeMemoryPool::allocate_chunk`: pop the free queue (the popped
address is hazard-protected during the access, see the section comment);
when the queue is empty, grow if the chunk count is below `max_chunks` and
fail with `PoolExhausted` otherwise. -/
def LockFreeMemoryPool.allocateChunk (st : LockFreeMemoryPool) :
    Except AllocError (Nat × LockFreeMemoryPool) :=
  match st.free_chunks with
  | chunk :: rest =>
      .ok (chunk.ptr,
        { st with
          free_chunks := rest
          free_count := wrapSub st.free_count 1
          allocated_count := wrapAdd st.allocated_count 1 })
  | [] =>
      if st.allocated_count + st.free_count ≥ st.config.max_chunks then
        .error .PoolExhausted
      else
        match Layout.fromSizeAlign st.config.chunk_size st.config.alignment with
        | none => .error (.InvalidLayout "invalid parameters to Layout::from_size_align")
        | some _ =>
            .ok (st.next_addr,
              { st with
                allocated_count := wrapAdd st.allocated_count 1
                total_memory := wrapAdd st.total_memory st.config.chunk_size
                next_addr := st.next_addr + 1 })

/-- `LockFreeMemoryPool::deallocate_chunk`: re-wrap the address in a fresh
`MemoryChunk` tagged with the fetched generation counter and enqueue it.
The optional `zero_on_dealloc` byte wipe touches only chunk contents, which
the fast-pool model does not carry (it hands out raw addresses). -/
def LockFreeMemoryPool.deallocateChunk (st : LockFreeMemoryPool) (ptr : Nat) :
    LockFreeMemoryPool :=
  let chunk : MemoryChunk := ⟨ptr, st.config.chunk_size, st.generation⟩
  { st with
    free_chunks := st.free_chunks ++ [chunk]
    generation := wrapAdd st.generation 1
    allocated_count := wrapSub st.allocated_count 1
    free_count := wrapAdd st.free_count 1 }

/-- `<LockFreeMemoryPool as MemoryAllocator>::allocate`: size and alignment
gates in source order, then `allocate_chunk`. -/
def LockFreeMemoryPool.allocate (st : LockFreeMemoryPool) (layout : Layout) :
    Except AllocError (Nat × LockFreeMemoryPool) :=
  if layout.size > st.config.chunk_size then
    .error (.SizeExceeded layout.size st.config.chunk_size)
  else if layout.align > st.config.alignment then
    .error (.AlignmentNotSupported layout.align st.config.alignment)
  else
    st.allocateChunk

/-- `<LockFreeMemoryPool as MemoryAllocator>::deallocate` ignores the layout
argument. -/
def LockFreeMemoryPool.deallocate (st : LockFreeMemoryPool) (ptr : Nat)
    (_layout : Layout) : LockFreeMemoryPool :=
  st.deallocateChunk ptr

/-- Operations a client may interleave on a live pool between two release
events of a tracked chunk. -/
inductive PoolOp where
  | alloc
  | dealloc (ptr : Nat)
deriving Repr, DecidableEq

/-- State effect of one interleaved operation; a failed `allocate_chunk`
leaves the state unchanged. -/
def LockFreeMemoryPool.step (st : LockFreeMemoryPool) : PoolOp → LockFreeMemoryPool
  | .alloc =>
      match st.allocateChunk with
      | .ok (_, st2) => st2
      | .error _ => st
  | .dealloc p => st.deallocateChunk p

/-- Number of generation-counter increments an operation list performs:
exactly the deallocations (allocation never touches the counter). -/
def genBumps : List PoolOp → Nat
  | [] => 0
  | .alloc :: ops => genBumps ops
  | .dealloc _ :: ops => 1 + genBumps ops

theorem allocateChunk_generation (st : LockFreeMemoryPool) :
    ∀ p st2, st.allocateChunk = .ok (p, st2) → st2.generation = st.generation := by
  intro p st2 h
  unfold LockFreeMemoryPool.allocateChunk at h
  cases hfc : st.free_chunks with
  | cons c rest => rw [hfc] at h; cases h; rfl
  | nil =>
      rw [hfc] at h
      by_cases hge : st.allocated_count + st.free_count ≥ st.config.max_chunks
      · simp [hge] at h
      · simp only [hge, if_neg, if_false] at h
        cases hl : Layout.fromSizeAlign st.config.chunk_size st.config.alignment with
        | none => rw [hl] at h; cases h
        | some l => rw [hl] at h; cases h; rfl

theorem step_alloc_generation (st : LockFreeMemoryPool) :
    (st.step .alloc).generation = st.generation := by
  unfold LockFreeMemoryPool.step
  cases h : st.allocateChunk with
  | ok pr =>
      cases pr with
      | mk p st2 => exact allocateChunk_generation st p st2 h
  | error e => rfl

theorem foldl_step_generation (ops : List PoolOp) :
    ∀ st : LockFreeMemoryPool, st.generation < W64 →
      (List.foldl LockFreeMemoryPool.step st ops).generation
        = (st.generation + genBumps ops) % W64 := by
  induction ops with
  | nil =>
      intro st h
      simpa [genBumps] using (Nat.mod_eq_of_lt h).symm
  | cons op ops ih =>
      intro st h
      cases op with
      | alloc =>
          have hgen : (st.step .alloc).generation = st.generation :=
            step_alloc_generation st
          simp only [List.foldl_cons, genBumps]
          rw [ih _ (by rw [hgen]; exact h), hgen]
      | dealloc p =>
          have hgen : (st.step (.dealloc p)).generation = wrapAdd st.generation 1 := rfl
          have hlt : (st.step (.dealloc p)).generation < W64 := by
            rw [hgen]; exact Nat.mod_lt _ (by decide)
          simp only [List.foldl_cons, genBumps]
          rw [ih _ hlt, hgen]
          unfold wrapAdd
          rw [Nat.mod_add_mod, Nat.add_assoc]

theorem preallocateLoop_config (n : Nat) :
    ∀ st : LockFreeMemoryPool,
      (LockFreeMemoryPool.preallocateLoop n st).config = st.config := by
  induction n with
  | zero => intro st; rfl
  | succ n ih => intro st; exact ih _

theorem preallocateLoop_length (n : Nat) :
    ∀ st : LockFreeMemoryPool,
      (LockFreeMemoryPool.preallocateLoop n st).free_chunks.length
        = st.free_chunks.length + n := by
  induction n with
  | zero => intro st; rfl
  | succ n ih =>
      intro st
      unfold LockFreeMemoryPool.preallocateLoop
      rw [ih]
      simp
      omega

theorem preallocateLoop_sizes (n : Nat) :
    ∀ st : LockFreeMemoryPool,
      (∀ c ∈ st.free_chunks, c.size = st.config.chunk_size) →
      ∀ c ∈ (LockFreeMemoryPool.preallocateLoop n st).free_chunks,
        c.size = st.config.chunk_size := by
  induction n with
  | zero => intro st h; exact h
  | succ n ih =>
      intro st h
      unfold LockFreeMemoryPool.preallocateLoop
      intro c hc
      have := ih _ (fun d hd => by
        rcases List.mem_append.mp hd with hd1 | hd2
        · exact h d hd1
        · rw [List.mem_singleton] at hd2; rw [hd2]) c hc
      simpa using this

/-! ## Theorems for claim C10 -/

/-- Counterexample for C10: `chunk_size = 2 ^ 63` is a power of two and at
least 64, so by the claim `new` must not return `InvalidLayout` for it — yet
it does, because `Layout::from_size_align(2 ^ 63, 64)` overflows
`isize::MAX`. -/
theorem C10_new_invalid_layout_cex :
    LockFreeMemoryPool.new ⟨2 ^ 63, 0, 100000, 64, false, 32⟩
      = .error (.InvalidLayout "invalid parameters to Layout::from_size_align")
    ∧ isPowerOfTwoNat (2 ^ 63) = true ∧ 64 ≤ 2 ^ 63 := by
  refine ⟨?_, by decide, by norm_num⟩
  rfl

/-- C10 amended: `LockFreeMemoryPool::new` yields `InvalidLayout` exactly
when `chunk_size` is simultaneously not a power of two and below 64, or when
`Layout::from_size_align(chunk_size, alignment)` is itself invalid (the
alignment is not a power of two, or the size overflows
`isize::MAX - (alignment - 1)`). In every other case — in particular for any
non-power-of-two `chunk_size ≥ 64` with the default alignment 64, such as
100 — construction succeeds and preallocates `initial_chunks` chunks of
`chunk_size` bytes. -/
theorem C10_new_characterization (cfg : PoolConfig) :
    ((¬(isPowerOfTwoNat cfg.chunk_size = false ∧ cfg.chunk_size < 64)) →
      Layout.fromSizeAlign cfg.chunk_size cfg.alignment ≠ none →
      ∃ st, LockFreeMemoryPool.new cfg = .ok st
        ∧ st.free_chunks.length = cfg.initial_chunks
        ∧ ∀ c ∈ st.free_chunks, c.size = cfg.chunk_size)
    ∧ ((∃ s, LockFreeMemoryPool.new cfg = .error (.InvalidLayout s)) ↔
        ((isPowerOfTwoNat cfg.chunk_size = false ∧ cfg.chunk_size < 64)
          ∨ Layout.fromSizeAlign cfg.chunk_size cfg.alignment = none)) := by
  constructor
  · intro hguard hlay
    have hg : (!isPowerOfTwoNat cfg.chunk_size && decide (cfg.chunk_size < 64)) = false := by
      by_cases hp : isPowerOfTwoNat cfg.chunk_size = true
      · simp [hp]
      · rw [Bool.not_eq_true] at hp
        have hnlt : ¬ cfg.chunk_size < 64 := fun hlt => hguard ⟨hp, hlt⟩
        simp [hp, hnlt]
    cases hl : Layout.fromSizeAlign cfg.chunk_size cfg.alignment with
    | none => exact absurd hl hlay
    | some l =>
        refine ⟨LockFreeMemoryPool.preallocateLoop cfg.initial_chunks
          { config := cfg, free_chunks := [], allocated_count := 0, free_count := 0,
            total_memory := 0, generation := 0, next_addr := 1 }, ?_, ?_, ?_⟩
        · unfold LockFreeMemoryPool.new
          rw [hg, hl]
          rfl
        · rw [preallocateLoop_length]
          simp
        · intro c hc
          exact preallocateLoop_sizes cfg.initial_chunks _ (by intro c h; cases h) c hc
  · constructor
    · rintro ⟨s, hs⟩
      by_cases h1 : isPowerOfTwoNat cfg.chunk_size = false ∧ cfg.chunk_size < 64
      · exact Or.inl h1
      · right
        have hg : (!isPowerOfTwoNat cfg.chunk_size && decide (cfg.chunk_size < 64)) = false := by
          by_cases hp : isPowerOfTwoNat cfg.chunk_size = true
          · simp [hp]
          · rw [Bool.not_eq_true] at hp
            have hnlt : ¬ cfg.chunk_size < 64 := fun hlt => h1 ⟨hp, hlt⟩
            simp [hp, hnlt]
        unfold LockFreeMemoryPool.new at hs
        rw [hg] at hs
        cases hl : Layout.fromSizeAlign cfg.chunk_size cfg.alignment with
        | none => rfl
        | some l => rw [hl] at hs; cases hs
    · intro h
      rcases h with ⟨h1, h2⟩ | h1
      · refine ⟨"Chunk size must be power of 2 and >= cache line size", ?_⟩
        unfold LockFreeMemoryPool.new
        have hg : (!isPowerOfTwoNat cfg.chunk_size && decide (cfg.chunk_size < 64)) = true := by
          simp [h1, h2]
        rw [hg]
        rfl
      · by_cases hg : (!isPowerOfTwoNat cfg.chunk_size && decide (cfg.chunk_size < 64)) = true
        · refine ⟨"Chunk size must be power of 2 and >= cache line size", ?_⟩
          unfold LockFreeMemoryPool.new
          rw [hg]
          rfl
        · refine ⟨"invalid parameters to Layout::from_size_align", ?_⟩
          unfold LockFreeMemoryPool.new
          rw [Bool.not_eq_true] at hg
          rw [hg, h1]
          rfl

/-- Witness for C10: `chunk_size = 100` (not a power of two, at least 64)
with the default alignment 64 constructs successfully and preallocates all
five requested chunks of 100 bytes. -/
theorem C10_new_characterization_w :
    ∃ st, LockFreeMemoryPool.new ⟨100, 5, 1000, 64, false, 32⟩ = .ok st
      ∧ st.free_chunks.length = 5
      ∧ ∀ c ∈ st.free_chunks, c.size = 100 :=
  (C10_new_characterization ⟨100, 5, 1000, 64, false, 32⟩).1 (by decide) (by decide)

/-! ## Safe pool (`safe_pool.rs`)

`SafeMemoryChunk` carries its byte contents (`Box<[u8]>`) and the
generation tag; the extra `id` field models `Arc` object identity, which the
source uses for `Arc::ptr_eq` when removing a chunk from the
`allocated_chunks` tracking list. The pool's `MemoryStats` sink is omitted
for the same reason as in the lock-free pool. -/

/-- `SafePoolConfig`. -/
structure SafePoolConfig where
  chunk_size : Nat
  initial_chunks : Nat
  max_chunks : Nat
  zero_on_dealloc : Bool
deriving Repr, DecidableEq

/-- `SafePoolConfig::default()`. -/
def SafePoolConfig.default : SafePoolConfig :=
  ⟨4096, 1024, 1000000, false⟩

/-- `SafeMemoryChunk` plus the identity of the `Arc` wrapping it. -/
structure SafeMemoryChunk where
  id : Nat
  data : List Nat
  generation : Nat
deriving Repr, DecidableEq

/-- `SafeMemoryChunk::new(size, generation)`: a zero-filled buffer. -/
def SafeMemoryChunk.create (id size generation : Nat) : SafeMemoryChunk :=
  ⟨id, List.replicate size 0, generation⟩

/-- A holder writing one byte through the handle
(`SafeMemoryHandle::as_mut_ptr`). -/
def SafeMemoryChunk.writeByte (c : SafeMemoryChunk) (i v : Nat) : SafeMemoryChunk :=
  { c with data := c.data.set i v }

/-- Sequential state of `SafeMemoryPool`; `allocated_chunks` keeps the
identities of the chunks currently tracked as allocated, and `next_id`
models the source of fresh `Arc` identities. -/
structure SafeMemoryPool where
  config : SafePoolConfig
  free_chunks : List SafeMemoryChunk
  allocated_chunks : List Nat
  allocated_count : Nat
  free_count : Nat
  total_memory : Nat
  generation : Nat
  next_id : Nat
deriving Repr, DecidableEq

/-- Preallocation loop of `SafeMemoryPool::preallocate_chunks`. -/
def SafeMemoryPool.preallocateLoop : Nat → SafeMemoryPool → SafeMemoryPool
  | 0, sp => sp
  | n + 1, sp =>
      let chunk := SafeMemoryChunk.create sp.next_id sp.config.chunk_size sp.generation
      SafeMemoryPool.preallocateLoop n
        { sp with
          free_chunks := sp.free_chunks ++ [chunk]
          generation := wrapAdd sp.generation 1
          free_count := wrapAdd sp.free_count 1
          total_memory := wrapAdd sp.total_memory sp.config.chunk_size
          next_id := sp.next_id + 1 }

/-- `SafeMemoryPool::new`: rejects `chunk_size == 0`, then preallocates. -/
def SafeMemoryPool.new (config : SafePoolConfig) :
    Except AllocError SafeMemoryPool :=
  if config.chunk_size = 0 then
    .error (.InvalidLayout "Chunk size must be greater than 0")
  else
    .ok (SafeMemoryPool.preallocateLoop config.initial_chunks
      { config := config
        free_chunks := []
        allocated_chunks := []
        allocated_count := 0
        free_count := 0
        total_memory := 0
        generation := 0
        next_id := 0 })

/-- `SafeMemoryPool::allocate_chunk`: pop a free buffer; when empty,
construct a new zero-initialized chunk if `allocated + free` is still below
`max_chunks`, and fail with `PoolExhausted` otherwise. -/
def SafeMemoryPool.allocateChunk (sp : SafeMemoryPool) :
    Except AllocError (SafeMemoryChunk × SafeMemoryPool) :=
  match sp.free_chunks with
  | chunk :: rest =>
      .ok (chunk,
        { sp with
          free_chunks := rest
          free_count := wrapSub sp.free_count 1
          allocated_count := wrapAdd sp.allocated_count 1
          allocated_chunks := sp.allocated_chunks ++ [chunk.id] })
  | [] =>
      if sp.allocated_count + sp.free_count ≥ sp.config.max_chunks then
        .error .PoolExhausted
      else
        let chunk := SafeMemoryChunk.create sp.next_id sp.config.chunk_size sp.generation
        .ok (chunk,
          { sp with
            allocated_chunks := sp.allocated_chunks ++ [chunk.id]
            allocated_count := wrapAdd sp.allocated_count 1
            total_memory := wrapAdd sp.total_memory sp.config.chunk_size
            generation := wrapAdd sp.generation 1
            next_id := sp.next_id + 1 })

/-- `SafeMemoryPool::deallocate_chunk`: optionally wipe the buffer
(`zero_on_dealloc`), drop the handle from the allocated tracking list
(`Arc::ptr_eq` retain) and push the chunk — generation untouched — back onto
the free queue. -/
def SafeMemoryPool.deallocateChunk (sp : SafeMemoryPool) (handle : SafeMemoryChunk) :
    SafeMemoryPool :=
  let c :=
    if sp.config.zero_on_dealloc then
      { handle with data := List.replicate handle.data.length 0 }
    else handle
  { sp with
    allocated_chunks := sp.allocated_chunks.filter (fun i => i != handle.id)
    free_chunks := sp.free_chunks ++ [c]
    allocated_count := wrapSub sp.allocated_count 1
    free_count := wrapAdd sp.free_count 1 }

/-- `MemoryAllocator::allocate_zeroed`, `cfg(not(feature = "hft-unsafe"))`
branch (`allocator.rs` lines 45-52): allocate and return as-is — the code
comments that "in safe mode, memory is already zeroed by SafeMemoryPool"
and writes no zeroes itself. -/
def SafeMemoryPool.allocateZeroed (sp : SafeMemoryPool) :
    Except AllocError (SafeMemoryChunk × SafeMemoryPool) :=
  sp.allocateChunk

/-! ## Theorems for claims C4, C5 and C9 -/

/-- C4 (code bug demonstration): with the default `zero_on_dealloc = false`,
the safe pool recycles a released chunk without wiping it, and the safe-mode
`allocate_zeroed` adds no zeroing of its own — so after a holder writes byte
1 and releases, `allocate_zeroed` hands back a buffer whose contents are
`[1]`, not all-zero, contradicting both the specification and the source's
own comment that safe-mode memory "is already zeroed by SafeMemoryPool". -/
theorem C4_allocate_zeroed_returns_dirty_chunk :
    (do
      let sp0 ← SafeMemoryPool.new ⟨1, 1, 1, false⟩
      let (c1, sp1) ← sp0.allocateChunk
      let sp2 := sp1.deallocateChunk (c1.writeByte 0 1)
      let (c2, _) ← sp2.allocateZeroed
      pure c2.data : Except AllocError (List Nat)) = .ok [1]
    ∧ [1] ≠ List.replicate 1 (0 : Nat) := by
  exact ⟨rfl, by decide⟩

/-- C5: `SafeMemoryPool::allocate_chunk` returns the popped existing chunk
when the free queue is non-empty; with an empty queue it constructs a fresh
zero-initialized chunk when `allocated + free < max_chunks` and fails with
`PoolExhausted` exactly when that count has reached `max_chunks`. -/
theorem C5_safe_pool_allocate_cases (sp : SafeMemoryPool) :
    (∀ c rest, sp.free_chunks = c :: rest →
      sp.allocateChunk = .ok (c,
        { sp with
          free_chunks := rest
          free_count := wrapSub sp.free_count 1
          allocated_count := wrapAdd sp.allocated_count 1
          allocated_chunks := sp.allocated_chunks ++ [c.id] }))
    ∧ (sp.free_chunks = [] →
        sp.allocated_count + sp.free_count < sp.config.max_chunks →
        ∃ sp2, sp.allocateChunk
            = .ok (SafeMemoryChunk.create sp.next_id sp.config.chunk_size sp.generation, sp2)
          ∧ (SafeMemoryChunk.create sp.next_id sp.config.chunk_size sp.generation).data
              = List.replicate sp.config.chunk_size 0)
    ∧ (sp.free_chunks = [] →
        sp.allocated_count + sp.free_count ≥ sp.config.max_chunks →
        sp.allocateChunk = .error .PoolExhausted) := by
  refine ⟨?_, ?_, ?_⟩
  · intro c rest h
    unfold SafeMemoryPool.allocateChunk
    rw [h]
  · intro h hlt
    unfold SafeMemoryPool.allocateChunk
    rw [h]
    have hn : ¬ sp.allocated_count + sp.free_count ≥ sp.config.max_chunks := by omega
    rw [if_neg hn]
    exact ⟨_, rfl, rfl⟩
  · intro h hge
    unfold SafeMemoryPool.allocateChunk
    rw [h]
    rw [if_pos hge]

/-- Witness for C5: a pool of capacity 2 holding one free chunk pops it; the
same pool with an empty queue and room grows a zeroed chunk; at capacity it
fails with `PoolExhausted`. -/
theorem C5_safe_pool_allocate_cases_w :
    (∀ c rest,
      (⟨⟨4, 1, 2, false⟩, [⟨0, [0, 0, 0, 0], 0⟩], [], 0, 1, 4, 1, 1⟩ :
          SafeMemoryPool).free_chunks = c :: rest →
      (⟨⟨4, 1, 2, false⟩, [⟨0, [0, 0, 0, 0], 0⟩], [], 0, 1, 4, 1, 1⟩ :
          SafeMemoryPool).allocateChunk = .ok (c,
        { (⟨⟨4, 1, 2, false⟩, [⟨0, [0, 0, 0, 0], 0⟩], [], 0, 1, 4, 1, 1⟩ :
            SafeMemoryPool) with
          free_chunks := rest
          free_count := wrapSub 1 1
          allocated_count := wrapAdd 0 1
          allocated_chunks := [] ++ [c.id] }))
    ∧ ((⟨⟨4, 1, 2, false⟩, [⟨0, [0, 0, 0, 0], 0⟩], [], 0, 1, 4, 1, 1⟩ :
          SafeMemoryPool).free_chunks = [] →
        0 + 1 < 2 →
        ∃ sp2, (⟨⟨4, 1, 2, false⟩, [⟨0, [0, 0, 0, 0], 0⟩], [], 0, 1, 4, 1, 1⟩ :
            SafeMemoryPool).allocateChunk = .ok (SafeMemoryChunk.create 1 4 1, sp2)
          ∧ (SafeMemoryChunk.create 1 4 1).data = List.replicate 4 0)
    ∧ ((⟨⟨4, 1, 2, false⟩, [⟨0, [0, 0, 0, 0], 0⟩], [], 0, 1, 4, 1, 1⟩ :
          SafeMemoryPool).free_chunks = [] →
        0 + 1 ≥ 2 →
        (⟨⟨4, 1, 2, false⟩, [⟨0, [0, 0, 0, 0], 0⟩], [], 0, 1, 4, 1, 1⟩ :
          SafeMemoryPool).allocateChunk = .error .PoolExhausted) :=
  C5_safe_pool_allocate_cases ⟨⟨4, 1, 2, false⟩, [⟨0, [0, 0, 0, 0], 0⟩], [], 0, 1, 4, 1, 1⟩

/-- Counterexample for C9: in the safe pool a chunk's generation is fixed at
construction; a concrete issue/release/issue cycle observes generation 0
both times, so the second issue's tag is not strictly greater. -/
theorem C9_safe_pool_generation_cex :
    (do
      let sp0 ← SafeMemoryPool.new ⟨1, 1, 1, false⟩
      let (c1, sp1) ← sp0.allocateChunk
      let sp2 := sp1.deallocateChunk c1
      let (c2, _) ← sp2.allocateChunk
      pure (decide (c1.generation < c2.generation)) : Except AllocError Bool)
      = .ok false := by
  rfl

/-- C9 amended: in the lock-free pool the generation tags a given address
receives at successive returns to the free queue are strictly increasing, as
long as the pool-wide 64-bit generation counter does not wrap in between; in
the safe pool a chunk's generation is assigned once at construction and is
unchanged by release, so successive issues of the same chunk observe equal
generations. -/
theorem C9_generation_tags (st : LockFreeMemoryPool) (ops : List PoolOp)
    (a b : Nat) (hlt : st.generation + 1 + genBumps ops < W64) :
    (∃ g1 g2,
      ((st.deallocateChunk a).free_chunks.getLast?).map MemoryChunk.generation
        = some g1
      ∧ (((List.foldl LockFreeMemoryPool.step (st.deallocateChunk a)
            ops).deallocateChunk b).free_chunks.getLast?).map MemoryChunk.generation
        = some g2
      ∧ g1 < g2)
    ∧ ∀ (sp : SafeMemoryPool) (c : SafeMemoryChunk),
        ((sp.deallocateChunk c).free_chunks.getLast?).map SafeMemoryChunk.generation
          = some c.generation := by
  constructor
  · have lastTag : ∀ (q : LockFreeMemoryPool) (p : Nat),
        ((q.deallocateChunk p).free_chunks.getLast?).map MemoryChunk.generation
          = some q.generation := by
      intro q p
      unfold LockFreeMemoryPool.deallocateChunk
      rw [List.getLast?_concat]
      rfl
    have hg1 := lastTag st a
    have hst1gen : (st.deallocateChunk a).generation = wrapAdd st.generation 1 := rfl
    have hst1lt : (st.deallocateChunk a).generation < W64 := by
      rw [hst1gen]
      exact Nat.mod_lt _ (by decide)
    have hfold := foldl_step_generation ops (st.deallocateChunk a) hst1lt
    have hgenlt : st.generation < W64 := by omega
    have hst2 : (List.foldl LockFreeMemoryPool.step (st.deallocateChunk a) ops).generation
        = st.generation + 1 + genBumps ops := by
      rw [hfold, hst1gen]
      unfold wrapAdd
      rw [Nat.mod_add_mod]
      exact Nat.mod_eq_of_lt hlt
    refine ⟨st.generation, st.generation + 1 + genBumps ops, hg1, ?_, by omega⟩
    rw [lastTag, hst2]
  · intro sp c
    unfold SafeMemoryPool.deallocateChunk
    by_cases hz : sp.config.zero_on_dealloc
    · simp only [hz, if_true]
      rw [List.getLast?_concat]
      rfl
    · simp only [hz, if_false]
      rw [List.getLast?_concat]
      rfl

/-- Witness for C9: a fresh default-config pool, two releases of address 7
with no operations in between. -/
theorem C9_generation_tags_w :
    (∃ g1 g2,
      (((⟨PoolConfig.default, [], 0, 0, 0, 0, 1⟩ :
          LockFreeMemoryPool).deallocateChunk 7).free_chunks.getLast?).map
            MemoryChunk.generation = some g1
      ∧ (((List.foldl LockFreeMemoryPool.step
            ((⟨PoolConfig.default, [], 0, 0, 0, 0, 1⟩ :
              LockFreeMemoryPool).deallocateChunk 7)
            []).deallocateChunk 7).free_chunks.getLast?).map MemoryChunk.generation
        = some g2
      ∧ g1 < g2)
    ∧ ∀ (sp : SafeMemoryPool) (c : SafeMemoryChunk),
        ((sp.deallocateChunk c).free_chunks.getLast?).map SafeMemoryChunk.generation
          = some c.generation :=
  C9_generation_tags ⟨PoolConfig.default, [], 0, 0, 0, 0, 1⟩ [] 7 7 (by decide)

/-! ## Slab allocator (`slab_allocator.rs`) -/

/-- `SlabConfig`. (`objects_per_slab` is carried but, as in the source,
never read by construction or allocation.) -/
structure SlabConfig where
  min_object_size : Nat
  max_object_size : Nat
  objects_per_slab : Nat
  pre_allocate_slabs : Nat
  cache_align : Bool
deriving Repr, DecidableEq

/-- `SlabConfig::default()`. -/
def SlabConfig.default : SlabConfig :=
  ⟨64, 8192, 1024, 100, true⟩

/-- A pre-allocated block (`MemoryBlock`), address stored as `usize`. -/
structure MemoryBlock where
  ptr : Nat
  size : Nat
deriving Repr, DecidableEq

/-- Fuel-bounded rendering of the size-class loop
`while size <= max { push size; size *= 2 }`. For `size ≥ 1` a fuel of
`max + 1` is never exhausted (the loop body runs at most `log2 max + 1`
times), so the fuel recursion computes exactly the source loop. -/
def buildSizeClassesAux : Nat → Nat → Nat → List Nat
  | 0, _, _ => []
  | fuel + 1, size, max =>
      if size ≤ max then size :: buildSizeClassesAux fuel (size * 2) max else []

/-- The size-class sequence of `SlabAllocator::new`. For
`min_object_size = 0` the source loop never terminates; the model returns
`[]` there, and no claim touches that configuration. -/
def buildSizeClasses (size max : Nat) : List Nat :=
  if size = 0 then [] else buildSizeClassesAux (max + 1) size max

/-- Sequential state of `SlabAllocator`: one free-block list per size
class, in class order. -/
structure SlabAllocator where
  config : SlabConfig
  free_blocks : List (List MemoryBlock)
  size_classes : List Nat
  allocated_count : Nat
  freed_count : Nat
  total_memory : Nat
  next_addr : Nat
deriving Repr, DecidableEq

/-- Per-class layout selection of `SlabAllocator::new`: cache-line
alignment 64 when `cache_align`, otherwise `align_of::<usize>() = 8`. -/
def slabLayoutFor (cfg : SlabConfig) (size_class : Nat) : Option Layout :=
  if cfg.cache_align then Layout.fromSizeAlign size_class 64
  else Layout.fromSizeAlign size_class 8

/-- The construction loop of `SlabAllocator::new`: for each size class,
validate the layout and push `pre_allocate_slabs` fresh blocks; returns the
per-class queues, the accumulated total memory and the next fresh address. -/
def slabNewLoop (cfg : SlabConfig) :
    List Nat → Nat → Except AllocError (List (List MemoryBlock) × Nat × Nat)
  | [], next_addr => .ok ([], 0, next_addr)
  | c :: rest, next_addr =>
      match slabLayoutFor cfg c with
      | none => .error (.InvalidLayout "invalid parameters to Layout::from_size_align")
      | some _ =>
          match slabNewLoop cfg rest (next_addr + cfg.pre_allocate_slabs) with
          | .error e => .error e
          | .ok (qs, tm, na) =>
              .ok ((List.range cfg.pre_allocate_slabs).map
                    (fun i => MemoryBlock.mk (next_addr + i) c) :: qs,
                  cfg.pre_allocate_slabs * c + tm, na)

/-- `SlabAllocator::new`. -/
def SlabAllocator.new (cfg : SlabConfig) : Except AllocError SlabAllocator :=
  match slabNewLoop cfg (buildSizeClasses cfg.min_object_size cfg.max_object_size) 1 with
  | .error e => .error e
  | .ok (qs, tm, na) =>
      .ok ⟨cfg, qs, buildSizeClasses cfg.min_object_size cfg.max_object_size,
        0, 0, tm, na⟩

/-- `SlabAllocator::allocate_object`: find the first (hence, classes being
sorted, the smallest) class at least `size`; `SizeExceeded` when none
qualifies, `PoolExhausted` when that class's queue is empty, and otherwise
pop one block (`InvalidLayout` on a null stored pointer, as in the source's
`NonNull::new` check). -/
def SlabAllocator.allocateObject (st : SlabAllocator) (size : Nat) :
    Except AllocError (MemoryBlock × SlabAllocator) :=
  match st.size_classes.findIdx? (fun c => decide (size ≤ c)) with
  | none => .error (.SizeExceeded size st.config.max_object_size)
  | some class_idx =>
      match st.free_blocks.getD class_idx [] with
      | [] => .error .PoolExhausted
      | block :: rest =>
          if block.ptr = 0 then
            .error (.InvalidLayout "Invalid pointer in free block")
          else
            .ok (block,
              { st with
                free_blocks := st.free_blocks.set class_idx rest
                allocated_count := wrapAdd st.allocated_count 1 })

/-- `<SlabAllocator as MemoryAllocator>::allocate` forwards only
`layout.size()`; the requested alignment is never inspected. -/
def SlabAllocator.allocate (st : SlabAllocator) (layout : Layout) :
    Except AllocError (MemoryBlock × SlabAllocator) :=
  st.allocateObject layout.size

/-- `SlabAllocator::deallocate_object`: push the block back onto the class
found by the same smallest-class rule; silently dropped when no class
fits. -/
def SlabAllocator.deallocateObject (st : SlabAllocator) (ptr size : Nat) :
    SlabAllocator :=
  match st.size_classes.findIdx? (fun c => decide (size ≤ c)) with
  | none => st
  | some class_idx =>
      { st with
        free_blocks := st.free_blocks.set class_idx
          (st.free_blocks.getD class_idx [] ++ [⟨ptr, st.size_classes.getD class_idx 0⟩])
        freed_count := wrapAdd st.freed_count 1 }

theorem buildSizeClassesAux_ge (fuel : Nat) :
    ∀ size max x, x ∈ buildSizeClassesAux fuel size max → size ≤ x := by
  induction fuel with
  | zero => intro size max x hx; cases hx
  | succ fuel ih =>
      intro size max x hx
      unfold buildSizeClassesAux at hx
      by_cases h : size ≤ max
      · rw [if_pos h] at hx
        rcases List.mem_cons.mp hx with h1 | h1
        · omega
        · have := ih (size * 2) max x h1
          omega
      · rw [if_neg h] at hx
        cases hx

theorem buildSizeClassesAux_sorted (fuel : Nat) :
    ∀ size max, List.Sorted (· ≤ ·) (buildSizeClassesAux fuel size max) := by
  induction fuel with
  | zero => intro size max; exact List.sorted_nil
  | succ fuel ih =>
      intro size max
      unfold buildSizeClassesAux
      by_cases h : size ≤ max
      · rw [if_pos h]
        rw [List.sorted_cons]
        refine ⟨fun b hb => ?_, ih (size * 2) max⟩
        have := buildSizeClassesAux_ge fuel (size * 2) max b hb
        omega
      · rw [if_neg h]
        exact List.sorted_nil

theorem buildSizeClasses_sorted (size max : Nat) :
    List.Sorted (· ≤ ·) (buildSizeClasses size max) := by
  unfold buildSizeClasses
  by_cases h : size = 0
  · rw [if_pos h]; exact List.sorted_nil
  · rw [if_neg h]; exact buildSizeClassesAux_sorted (max + 1) size max

/-! ## Theorems for claim C6 -/

/-- C6: the slab allocator serves `allocate(size)` from the smallest size
class at least `size` (the classes of a constructed allocator are ascending,
doubling from `min_object_size`); a size above every class fails with
`SizeExceeded {size, max_object_size}`, and an empty free list in the
selected class fails with `PoolExhausted`. With classes {64, 128, 256, 512},
size 100 is served from the 128 class and size 1024 fails with
`SizeExceeded {1024, 512}`. -/
theorem C6_slab_smallest_class (st : SlabAllocator) (size : Nat) :
    ((∀ c ∈ st.size_classes, c < size) →
      st.allocateObject size = .error (.SizeExceeded size st.config.max_object_size))
    ∧ (∀ i, List.Sorted (· ≤ ·) st.size_classes →
        st.size_classes.findIdx? (fun c => decide (size ≤ c)) = some i →
        ((size ≤ st.size_classes.getD i 0
            ∧ ∀ c ∈ st.size_classes, size ≤ c → st.size_classes.getD i 0 ≤ c)
          ∧ (st.free_blocks.getD i [] = [] →
              st.allocateObject size = .error .PoolExhausted)
          ∧ (∀ b rest, st.free_blocks.getD i [] = b :: rest → b.ptr ≠ 0 →
              st.allocateObject size = .ok (b,
                { st with
                  free_blocks := st.free_blocks.set i rest
                  allocated_count := wrapAdd st.allocated_count 1 }))))
    ∧ (∀ cfg st0, SlabAllocator.new cfg = .ok st0 →
        st0.size_classes = buildSizeClasses cfg.min_object_size cfg.max_object_size
        ∧ List.Sorted (· ≤ ·) st0.size_classes)
    ∧ buildSizeClasses 64 512 = [64, 128, 256, 512]
    ∧ (SlabAllocator.new ⟨64, 512, 1024, 2, true⟩).bind
        (fun s0 => (s0.allocateObject 100).map (fun p => p.1.size)) = .ok 128
    ∧ (SlabAllocator.new ⟨64, 512, 1024, 2, true⟩).bind
        (fun s0 => (s0.allocateObject 1024).map (fun p => p.1.size))
      = .error (.SizeExceeded 1024 512) := by
  refine ⟨?_, ?_, ?_, by rfl, by rfl, by rfl⟩
  · intro hall
    have hnone : st.size_classes.findIdx? (fun c => decide (size ≤ c)) = none := by
      rw [List.findIdx?_eq_none_iff]
      intro x hx
      have := hall x hx
      simp
      omega
    unfold SlabAllocator.allocateObject
    rw [hnone]
  · intro i hsorted hfind
    obtain ⟨hlen, hp, hprev⟩ := List.findIdx?_eq_some_iff_getElem.mp hfind
    have hgetD : st.size_classes.getD i 0 = st.size_classes[i] := by
      rw [List.getD_eq_getElem?_getD, List.getElem?_eq_getElem hlen]
      rfl
    refine ⟨⟨?_, ?_⟩, ?_, ?_⟩
    · rw [hgetD]
      simpa using hp
    · intro c hc hsc
      obtain ⟨j, hj, hcj⟩ := List.mem_iff_getElem.mp hc
      rw [hgetD, ← hcj]
      by_cases hji : j < i
      · exfalso
        have := hprev j hji
        rw [hcj] at this
        simp at this
        omega
      · have hij : i ≤ j := by omega
        exact @List.Sorted.rel_get_of_le _ _ _ _ hsorted ⟨i, hlen⟩ ⟨j, hj⟩ hij
    · intro hempty
      have hred : st.allocateObject size
          = match st.free_blocks.getD i [] with
            | [] => .error .PoolExhausted
            | block :: rest =>
                if block.ptr = 0 then
                  .error (.InvalidLayout "Invalid pointer in free block")
                else
                  .ok (block,
                    { st with
                      free_blocks := st.free_blocks.set i rest
                      allocated_count := wrapAdd st.allocated_count 1 }) := by
        unfold SlabAllocator.allocateObject
        rw [hfind]
      rw [hred, hempty]
    · intro b rest hblocks hptr
      have hred : st.allocateObject size
          = match st.free_blocks.getD i [] with
            | [] => .error .PoolExhausted
            | block :: rest =>
                if block.ptr = 0 then
                  .error (.InvalidLayout "Invalid pointer in free block")
                else
                  .ok (block,
                    { st with
                      free_blocks := st.free_blocks.set i rest
                      allocated_count := wrapAdd st.allocated_count 1 }) := by
        unfold SlabAllocator.allocateObject
        rw [hfind]
      rw [hred, hblocks]
      exact if_neg hptr
  · intro cfg st0 hnew
    unfold SlabAllocator.new at hnew
    cases hloop : slabNewLoop cfg
        (buildSizeClasses cfg.min_object_size cfg.max_object_size) 1 with
    | error e => rw [hloop] at hnew; cases hnew
    | ok res =>
        rw [hloop] at hnew
        obtain ⟨qs, tm, na⟩ := res
        cases hnew
        exact ⟨rfl, buildSizeClasses_sorted _ _⟩

/-- Witness for C6: a one-class allocator (class 64, one free block at
address 1) allocating 64 bytes. -/
theorem C6_slab_smallest_class_w :
    ((∀ c ∈ (⟨⟨64, 64, 1, 1, false⟩, [[⟨1, 64⟩]], [64], 0, 0, 64, 2⟩ :
        SlabAllocator).size_classes, c < 64) →
      (⟨⟨64, 64, 1, 1, false⟩, [[⟨1, 64⟩]], [64], 0, 0, 64, 2⟩ :
        SlabAllocator).allocateObject 64 = .error (.SizeExceeded 64 64))
    ∧ (∀ i, List.Sorted (· ≤ ·) (⟨⟨64, 64, 1, 1, false⟩, [[⟨1, 64⟩]], [64], 0, 0, 64, 2⟩ :
          SlabAllocator).size_classes →
        (⟨⟨64, 64, 1, 1, false⟩, [[⟨1, 64⟩]], [64], 0, 0, 64, 2⟩ :
          SlabAllocator).size_classes.findIdx? (fun c => decide (64 ≤ c)) = some i →
        ((64 ≤ (⟨⟨64, 64, 1, 1, false⟩, [[⟨1, 64⟩]], [64], 0, 0, 64, 2⟩ :
              SlabAllocator).size_classes.getD i 0
            ∧ ∀ c ∈ (⟨⟨64, 64, 1, 1, false⟩, [[⟨1, 64⟩]], [64], 0, 0, 64, 2⟩ :
                SlabAllocator).size_classes, 64 ≤ c →
              (⟨⟨64, 64, 1, 1, false⟩, [[⟨1, 64⟩]], [64], 0, 0, 64, 2⟩ :
                SlabAllocator).size_classes.getD i 0 ≤ c)
          ∧ ((⟨⟨64, 64, 1, 1, false⟩, [[⟨1, 64⟩]], [64], 0, 0, 64, 2⟩ :
                SlabAllocator).free_blocks.getD i [] = [] →
              (⟨⟨64, 64, 1, 1, false⟩, [[⟨1, 64⟩]], [64], 0, 0, 64, 2⟩ :
                SlabAllocator).allocateObject 64 = .error .PoolExhausted)
          ∧ (∀ b rest, (⟨⟨64, 64, 1, 1, false⟩, [[⟨1, 64⟩]], [64], 0, 0, 64, 2⟩ :
                SlabAllocator).free_blocks.getD i [] = b :: rest → b.ptr ≠ 0 →
              (⟨⟨64, 64, 1, 1, false⟩, [[⟨1, 64⟩]], [64], 0, 0, 64, 2⟩ :
                SlabAllocator).allocateObject 64 = .ok (b,
                { (⟨⟨64, 64, 1, 1, false⟩, [[⟨1, 64⟩]], [64], 0, 0, 64, 2⟩ :
                    SlabAllocator) with
                  free_blocks := (⟨⟨64, 64, 1, 1, false⟩, [[⟨1, 64⟩]], [64], 0, 0, 64, 2⟩ :
                    SlabAllocator).free_blocks.set i rest
                  allocated_count := wrapAdd 0 1 }))))
    ∧ (∀ cfg st0, SlabAllocator.new cfg = .ok st0 →
        st0.size_classes = buildSizeClasses cfg.min_object_size cfg.max_object_size
        ∧ List.Sorted (· ≤ ·) st0.size_classes)
    ∧ buildSizeClasses 64 512 = [64, 128, 256, 512]
    ∧ (SlabAllocator.new ⟨64, 512, 1024, 2, true⟩).bind
        (fun s0 => (s0.allocateObject 100).map (fun p => p.1.size)) = .ok 128
    ∧ (SlabAllocator.new ⟨64, 512, 1024, 2, true⟩).bind
        (fun s0 => (s0.allocateObject 1024).map (fun p => p.1.size))
      = .error (.SizeExceeded 1024 512) :=
  C6_slab_smallest_class ⟨⟨64, 64, 1, 1, false⟩, [[⟨1, 64⟩]], [64], 0, 0, 64, 2⟩ 64

/-! ## Theorems for claim C3 (counterexample) -/

/-- Counterexample for C3: the slab allocator never inspects the requested
alignment — a layout of 64 bytes with alignment 128 (well above the claimed
maximum of 64) is served successfully instead of failing with
`AlignmentNotSupported`. -/
theorem C3_slab_accepts_align_128_cex :
    (SlabAllocator.new ⟨64, 512, 1, 1, true⟩).bind
        (fun s0 => (s0.allocate ⟨64, 128⟩).map (fun p => p.1)) = .ok ⟨1, 64⟩
    ∧ (SlabAllocator.new ⟨64, 512, 1, 1, true⟩).bind
        (fun s0 => (s0.allocate ⟨64, 128⟩).map (fun p => p.1))
      ≠ .error (.AlignmentNotSupported 128 64) := by
  refine ⟨rfl, fun h => ?_⟩
  exact Except.noConfusion h

/-! ## NUMA allocator (`numa_allocator.rs`)

The per-node pools are `LockFreeMemoryPool` states. `config.nodes` and
`node_pools` have the same length by construction (`new` pushes one pool per
node), so node counting is done on `node_pools`. The caller's home node
(`get_current_numa_node`, OS affinity or thread-id hash) is an environment
input, passed as the `thread_node` argument. -/

/-- `NumaStats`; `allocations_per_node` is the entry map as an association
list in insertion order. -/
structure NumaStats where
  allocations_per_node : List (Nat × Nat)
  cross_node_allocations : Nat
  local_allocations : Nat
  total_bytes_allocated : Nat
deriving Repr, DecidableEq

/-- `*stats.allocations_per_node.entry(node_id).or_insert(0) += 1`. -/
def bumpNode : List (Nat × Nat) → Nat → List (Nat × Nat)
  | [], n => [(n, 1)]
  | (k, v) :: rest, n =>
      if k = n then (k, v + 1) :: rest else (k, v) :: bumpNode rest n

/-- Sequential state of `NumaAllocator`. -/
structure NumaAllocator where
  interleave : Bool
  local_alloc_preference : Bool
  node_pools : List LockFreeMemoryPool
  current_node : Nat
  allocation_stats : NumaStats
deriving Repr, DecidableEq

/-- `NumaAllocator::update_stats`. -/
def NumaAllocator.updateStats (st : NumaAllocator) (node_id size : Nat)
    (is_local : Bool) : NumaAllocator :=
  let s := st.allocation_stats
  { st with
    allocation_stats :=
      { allocations_per_node := bumpNode s.allocations_per_node node_id
        cross_node_allocations :=
          if is_local then s.cross_node_allocations else s.cross_node_allocations + 1
        local_allocations :=
          if is_local then s.local_allocations + 1 else s.local_allocations
        total_bytes_allocated := s.total_bytes_allocated + size } }

/-- `NumaAllocator::select_allocation_node`: interleave round-robin (the
shared counter is fetched-and-incremented even when allocation later
fails), else the caller's home node, else node 0. -/
def NumaAllocator.selectAllocationNode (st : NumaAllocator) (thread_node : Nat) :
    Nat × NumaAllocator :=
  if st.interleave then
    (st.current_node % st.node_pools.length,
      { st with current_node := wrapAdd st.current_node 1 })
  else if st.local_alloc_preference then (thread_node, st)
  else (0, st)

/-- `NumaAllocator::try_allocate_from_node`. -/
def NumaAllocator.tryAllocateFromNode (st : NumaAllocator) (node_id : Nat)
    (layout : Layout) : Except AllocError (Nat × NumaAllocator) :=
  if h : node_id < st.node_pools.length then
    match (st.node_pools.get ⟨node_id, h⟩).allocate layout with
    | .error e => .error e
    | .ok (p, pool2) =>
        .ok (p, { st with node_pools := st.node_pools.set node_id pool2 })
  else
    .error (.NumaNodeUnavailable node_id)

/-- The fallback loop of `NumaAllocator::allocate`: walk the enumerated
pools in order, skip the preferred node, return the first success. -/
def numaFallback (layout : Layout) (preferred : Nat) :
    List (Nat × LockFreeMemoryPool) → Option (Nat × Nat × LockFreeMemoryPool)
  | [] => none
  | (i, pool) :: rest =>
      if i = preferred then numaFallback layout preferred rest
      else
        match pool.allocate layout with
        | .ok (p, pool2) => some (i, p, pool2)
        | .error _ => numaFallback layout preferred rest

/-- `<NumaAllocator as MemoryAllocator>::allocate`: try the selected node,
update stats as local on success; otherwise fall through every other node
in order and report `OutOfMemory` when all refuse. -/
def NumaAllocator.allocate (st : NumaAllocator) (thread_node : Nat)
    (layout : Layout) : Except AllocError (Nat × NumaAllocator) :=
  let sel := st.selectAllocationNode thread_node
  let preferred := sel.1
  let st1 := sel.2
  match st1.tryAllocateFromNode preferred layout with
  | .ok (p, st2) => .ok (p, st2.updateStats preferred layout.size true)
  | .error _ =>
      match numaFallback layout preferred st1.node_pools.enum with
      | some (i, p, pool2) =>
          .ok (p, ({ st1 with node_pools := st1.node_pools.set i pool2
            }).updateStats i layout.size false)
      | none => .error .OutOfMemory

/-- `<NumaAllocator as MemoryAllocator>::deallocate`: the source iterates
`node_pools` but returns inside the first iteration, so the pointer is
handed to pool 0 unconditionally. -/
def NumaAllocator.deallocate (st : NumaAllocator) (ptr : Nat) (layout : Layout) :
    NumaAllocator :=
  match st.node_pools with
  | [] => st
  | pool :: rest => { st with node_pools := pool.deallocate ptr layout :: rest }

/-! ## Theorems for claim C2 -/

/-- C2: on a NUMA allocator with at least one node, `deallocate` funnels
every pointer into the pool of node 0 — whatever pool it was allocated
from — and leaves every other node's pool untouched. -/
theorem C2_numa_deallocate_pool_zero (st : NumaAllocator) (ptr : Nat)
    (layout : Layout) (pool : LockFreeMemoryPool) (rest : List LockFreeMemoryPool)
    (hp : st.node_pools = pool :: rest) :
    (st.deallocate ptr layout).node_pools = pool.deallocate ptr layout :: rest
    ∧ (st.deallocate ptr layout).node_pools.tail = rest := by
  unfold NumaAllocator.deallocate
  rw [hp]
  exact ⟨rfl, rfl⟩

/-- Witness for C2: a two-node allocator over empty default pools;
deallocating address 7 touches only node 0's pool. -/
theorem C2_numa_deallocate_pool_zero_w :
    ((⟨false, true, [⟨PoolConfig.default, [], 0, 0, 0, 0, 1⟩,
        ⟨PoolConfig.default, [], 0, 0, 0, 0, 1⟩], 0, ⟨[], 0, 0, 0⟩⟩ :
        NumaAllocator).deallocate 7 ⟨8, 8⟩).node_pools
      = (⟨PoolConfig.default, [], 0, 0, 0, 0, 1⟩ :
          LockFreeMemoryPool).deallocate 7 ⟨8, 8⟩
        :: [⟨PoolConfig.default, [], 0, 0, 0, 0, 1⟩]
    ∧ ((⟨false, true, [⟨PoolConfig.default, [], 0, 0, 0, 0, 1⟩,
        ⟨PoolConfig.default, [], 0, 0, 0, 0, 1⟩], 0, ⟨[], 0, 0, 0⟩⟩ :
        NumaAllocator).deallocate 7 ⟨8, 8⟩).node_pools.tail
      = [⟨PoolConfig.default, [], 0, 0, 0, 0, 1⟩] :=
  C2_numa_deallocate_pool_zero
    ⟨false, true, [⟨PoolConfig.default, [], 0, 0, 0, 0, 1⟩,
      ⟨PoolConfig.default, [], 0, 0, 0, 0, 1⟩], 0, ⟨[], 0, 0, 0⟩⟩
    7 ⟨8, 8⟩ ⟨PoolConfig.default, [], 0, 0, 0, 0, 1⟩
    [⟨PoolConfig.default, [], 0, 0, 0, 0, 1⟩] rfl

/-! ## Theorems for claim C3 (amended) -/

theorem lockFree_allocate_alignment_gate (st : LockFreeMemoryPool) (layout : Layout)
    (hsz : layout.size ≤ st.config.chunk_size)
    (hal : st.config.alignment < layout.align) :
    st.allocate layout
      = .error (.AlignmentNotSupported layout.align st.config.alignment) := by
  unfold LockFreeMemoryPool.allocate
  rw [if_neg (by omega), if_pos hal]

theorem enumFrom_snd_mem {α : Type} :
    ∀ (l : List α) (n : Nat) (ip : Nat × α), ip ∈ List.enumFrom n l → ip.2 ∈ l := by
  intro l
  induction l with
  | nil => intro n ip h; cases h
  | cons a rest ih =>
      intro n ip h
      have : ip ∈ (n, a) :: List.enumFrom (n + 1) rest := h
      rcases List.mem_cons.mp this with h1 | h1
      · rw [h1]; exact List.mem_cons_self a rest
      · exact List.mem_cons_of_mem a (ih (n + 1) ip h1)

theorem numaFallback_all_fail (layout : Layout) (preferred : Nat) :
    ∀ pairs : List (Nat × LockFreeMemoryPool),
      (∀ ip ∈ pairs, ∃ e, ip.2.allocate layout = Except.error e) →
      numaFallback layout preferred pairs = none := by
  intro pairs
  induction pairs with
  | nil => intro h; rfl
  | cons ip rest ih =>
      intro h
      obtain ⟨i, pool⟩ := ip
      obtain ⟨e, he⟩ := h (i, pool) (List.mem_cons_self _ _)
      unfold numaFallback
      by_cases hip : i = preferred
      · rw [if_pos hip]
        exact ih (fun jp hjp => h jp (List.mem_cons_of_mem _ hjp))
      · rw [if_neg hip]
        rw [he]
        exact ih (fun jp hjp => h jp (List.mem_cons_of_mem _ hjp))

theorem selectAllocationNode_pools (st : NumaAllocator) (tn : Nat) :
    (st.selectAllocationNode tn).2.node_pools = st.node_pools := by
  unfold NumaAllocator.selectAllocationNode
  by_cases hi : st.interleave
  · simp [hi]
  · by_cases hl : st.local_alloc_preference <;> simp [hi, hl]

/-- C3 amended: an over-aligned request (alignment above the backend's
configured maximum, 64 by default) fails with
`AlignmentNotSupported {align, max}` on the lock-free pool whenever the size
itself fits; the slab allocator never inspects alignment at all, and the
NUMA allocator turns its nodes' alignment refusals into `OutOfMemory` after
falling through every node. -/
theorem C3_alignment_gate_per_backend :
    (∀ (st : LockFreeMemoryPool) (layout : Layout),
        layout.size ≤ st.config.chunk_size →
        st.config.alignment < layout.align →
        st.allocate layout
          = .error (.AlignmentNotSupported layout.align st.config.alignment))
    ∧ (∀ (st : SlabAllocator) (size a1 a2 : Nat),
        st.allocate ⟨size, a1⟩ = st.allocate ⟨size, a2⟩)
    ∧ (∀ (st : NumaAllocator) (tn : Nat) (layout : Layout),
        st.node_pools ≠ [] →
        (∀ pool ∈ st.node_pools,
          layout.size ≤ pool.config.chunk_size
            ∧ pool.config.alignment < layout.align) →
        st.allocate tn layout = .error .OutOfMemory) := by
  refine ⟨lockFree_allocate_alignment_gate, fun st size a1 a2 => rfl, ?_⟩
  intro st tn layout _hne hall
  unfold NumaAllocator.allocate
  have hpools := selectAllocationNode_pools st tn
  have htry : ∃ e, (st.selectAllocationNode tn).2.tryAllocateFromNode
      (st.selectAllocationNode tn).1 layout = .error e := by
    unfold NumaAllocator.tryAllocateFromNode
    by_cases h : (st.selectAllocationNode tn).1 < (st.selectAllocationNode tn).2.node_pools.length
    · have hmem : ((st.selectAllocationNode tn).2.node_pools.get
          ⟨(st.selectAllocationNode tn).1, h⟩) ∈ st.node_pools := by
        rw [← hpools]
        exact List.get_mem _ _ _
      obtain ⟨hsz, hal⟩ := hall _ hmem
      refine ⟨.AlignmentNotSupported layout.align
        ((st.selectAllocationNode tn).2.node_pools.get
          ⟨(st.selectAllocationNode tn).1, h⟩).config.alignment, ?_⟩
      rw [dif_pos h, lockFree_allocate_alignment_gate _ _ hsz hal]
    · exact ⟨.NumaNodeUnavailable (st.selectAllocationNode tn).1, by rw [dif_neg h]⟩
  obtain ⟨e, he⟩ := htry
  have hfb : numaFallback layout (st.selectAllocationNode tn).1
      (st.selectAllocationNode tn).2.node_pools.enum = none := by
    apply numaFallback_all_fail
    intro ip hip
    have hmem : ip.2 ∈ st.node_pools := by
      rw [← hpools]
      exact enumFrom_snd_mem _ 0 ip hip
    obtain ⟨hsz, hal⟩ := hall _ hmem
    exact ⟨_, lockFree_allocate_alignment_gate _ _ hsz hal⟩
  simp only [he, hfb]

/-- Witness for C3 amended: a default-config lock-free pool refuses
alignment 128 with `AlignmentNotSupported {128, 64}`, a one-class slab
allocator ignores the alignment, and a one-node NUMA allocator over that
pool reports `OutOfMemory` for the same request. -/
theorem C3_alignment_gate_per_backend_w :
    (⟨PoolConfig.default, [], 0, 0, 0, 0, 1⟩ : LockFreeMemoryPool).allocate ⟨64, 128⟩
      = .error (.AlignmentNotSupported 128 64)
    ∧ (⟨⟨64, 64, 1, 1, false⟩, [[⟨1, 64⟩]], [64], 0, 0, 64, 2⟩ :
        SlabAllocator).allocate ⟨64, 128⟩
      = (⟨⟨64, 64, 1, 1, false⟩, [[⟨1, 64⟩]], [64], 0, 0, 64, 2⟩ :
        SlabAllocator).allocate ⟨64, 4096⟩
    ∧ (⟨false, false, [⟨PoolConfig.default, [], 0, 0, 0, 0, 1⟩], 0,
        ⟨[], 0, 0, 0⟩⟩ : NumaAllocator).allocate 0 ⟨64, 128⟩
      = .error .OutOfMemory :=
  ⟨(C3_alignment_gate_per_backend).1 ⟨PoolConfig.default, [], 0, 0, 0, 0, 1⟩ ⟨64, 128⟩
      (by decide) (by decide),
    (C3_alignment_gate_per_backend).2.1
      ⟨⟨64, 64, 1, 1, false⟩, [[⟨1, 64⟩]], [64], 0, 0, 64, 2⟩ 64 128 4096,
    (C3_alignment_gate_per_backend).2.2
      ⟨false, false, [⟨PoolConfig.default, [], 0, 0, 0, 0, 1⟩], 0, ⟨[], 0, 0, 0⟩⟩
      0 ⟨64, 128⟩ (by decide)
      (by
        intro pool hpool
        rw [List.mem_singleton] at hpool
        rw [hpool]
        exact ⟨by decide, by decide⟩)⟩

/-! ## Telemetry (`stats.rs`)

`MemoryStats` counters are atomics (`u64` / `usize`), modelled with the
64-bit wrapping helpers. `record_deallocation` returns, besides the new
state, the two `tracing` events it may emit, as boolean flags. The latency
ring `LatencyTracker` lives behind a lock and is modelled on its own. -/

/-- Counter block of `MemoryStats` (clocks and the locked ring/histogram
are modelled separately; see the section comment). -/
structure MemoryStats where
  allocations : Nat
  deallocations : Nat
  allocated_bytes : Nat
  peak_bytes : Nat
  failed_allocations : Nat
deriving Repr, DecidableEq

/-- Log lines `record_deallocation` can emit. -/
structure DeallocLog where
  underflow_logged : Bool
  counter_overflow_logged : Bool
deriving Repr, DecidableEq

/-- `MemoryStats::record_deallocation`: bump the deallocation counter, do a
wrapping `fetch_sub` of `size` on the live-bytes gauge, and log — without
altering the gauge — when the fetched previous value was smaller than
`size` (underflow) or the deallocation counter was at `u64::MAX`
(overflow). The operation is total: it never aborts. -/
def MemoryStats.recordDeallocation (st : MemoryStats) (size : Nat) :
    MemoryStats × DeallocLog :=
  ({ st with
      deallocations := wrapAdd st.deallocations 1
      allocated_bytes := wrapSub st.allocated_bytes size },
    ⟨decide (st.allocated_bytes < size), decide (st.deallocations = W64 - 1)⟩)

/-! ## Theorems for claim C8 -/

/-- Counterexample for C8: deallocating 1 byte against a zero live-bytes
gauge does not clamp — the gauge wraps to `2 ^ 64 - 1`, a huge value. -/
theorem C8_live_bytes_wraps_cex :
    ((MemoryStats.mk 0 0 0 0 0).recordDeallocation 1).1.allocated_bytes = W64 - 1
    ∧ W64 - 1 > 0 := by
  exact ⟨rfl, by decide⟩

/-- C8 amended: when `record_deallocation(size)` is called with `size`
greater than the current live-bytes value, the violation is logged and the
operation completes without aborting, but the gauge is NOT clamped: the
wrapping `fetch_sub` leaves `prev + 2 ^ 64 - size`, which is strictly
larger than the previous value. -/
theorem C8_deallocation_underflow (st : MemoryStats) (size : Nat)
    (hb : st.allocated_bytes < W64) (hs : size < W64)
    (hu : st.allocated_bytes < size) :
    (st.recordDeallocation size).2.underflow_logged = true
    ∧ (st.recordDeallocation size).1.allocated_bytes
        = st.allocated_bytes + (W64 - size)
    ∧ st.allocated_bytes < (st.recordDeallocation size).1.allocated_bytes := by
  refine ⟨by simp [MemoryStats.recordDeallocation, hu], ?_, ?_⟩
  · show wrapSub st.allocated_bytes size = st.allocated_bytes + (W64 - size)
    unfold wrapSub W64 at *
    rw [Nat.mod_eq_of_lt (by omega)]
    rw [Nat.mod_eq_of_lt (by omega)]
  · show st.allocated_bytes < wrapSub st.allocated_bytes size
    unfold wrapSub W64 at *
    rw [Nat.mod_eq_of_lt (by omega), Nat.mod_eq_of_lt (by omega)]
    omega

/-- Witness for C8: live-bytes 3, deallocation of size 5. -/
theorem C8_deallocation_underflow_w :
    ((MemoryStats.mk 0 0 3 0 0).recordDeallocation 5).2.underflow_logged = true
    ∧ ((MemoryStats.mk 0 0 3 0 0).recordDeallocation 5).1.allocated_bytes
        = 3 + (W64 - 5)
    ∧ 3 < ((MemoryStats.mk 0 0 3 0 0).recordDeallocation 5).1.allocated_bytes :=
  C8_deallocation_underflow (MemoryStats.mk 0 0 3 0 0) 5 (by decide) (by decide)
    (by decide)

/-! ## Latency tracker (`stats.rs`, `LatencyTracker`) -/

/-- Ring capacity `HISTORY_SIZE`. -/
def HISTORY_SIZE : Nat := 1000

/-- `LatencyTracker`: the sample ring (front = oldest), the lazily rebuilt
sorted shadow and its validity flag. -/
structure LatencyTracker where
  samples : List Nat
  sorted_cache : List Nat
  cache_valid : Bool
deriving Repr, DecidableEq

/-- `LatencyTracker::new()`. -/
def LatencyTracker.empty : LatencyTracker := ⟨[], [], false⟩

/-- `LatencyTracker::record`: pop the oldest sample once the ring is full,
push the new one, invalidate the cache. (The source's inner min/max
comparison only clears `cache_valid`, which the final statement clears
unconditionally anyway, so it has no further observable effect.) -/
def LatencyTracker.record (t : LatencyTracker) (latency_ns : Nat) : LatencyTracker :=
  let samples := if t.samples.length ≥ HISTORY_SIZE then t.samples.tail else t.samples
  { t with samples := samples ++ [latency_ns], cache_valid := false }

/-- The five percentile targets {0.5, 0.9, 0.95, 0.99, 0.999} as exact
fractions `(numerator, denominator)`. The source computes the index
`((len as f64 - 1.0) * percentile) as usize` in `f64`; for every reachable
sample count (`len ≤ HISTORY_SIZE = 1000`) and these five targets the `f64`
product truncates to exactly `(len - 1) * num / den` in integer division,
which the model uses. -/
def PERCENTILES : List (Nat × Nat) := [(1, 2), (9, 10), (19, 20), (99, 100), (999, 1000)]

/-- `LatencyTracker::get_percentile`: zero on an empty ring; otherwise
rebuild the sorted shadow if stale and index it at
`floor((len - 1) * percentile)`. Returns the value and the (possibly
re-cached) tracker. -/
def LatencyTracker.getPercentile (t : LatencyTracker) (pnum pden : Nat) :
    Nat × LatencyTracker :=
  if t.samples.isEmpty then (0, t)
  else
    let t2 := if t.cache_valid then t else
      { t with
        sorted_cache := t.samples.mergeSort (fun a b => decide (a ≤ b))
        cache_valid := true }
    (t2.sorted_cache.getD ((t2.sorted_cache.length - 1) * pnum / pden) 0, t2)

/-- `LatencyStats` snapshot; the mean is the exact rational the source
approximates in `f64`. -/
structure LatencyStats where
  mean_ns : Rat
  median_ns : Nat
  p90_ns : Nat
  p95_ns : Nat
  p99_ns : Nat
  p999_ns : Nat
  min_ns : Nat
  max_ns : Nat
deriving Repr, DecidableEq

/-- `LatencyTracker::get_stats`: all-zero on an empty ring, else the mean
plus the five percentile reads (threaded through the cache) and min/max. -/
def LatencyTracker.getStats (t : LatencyTracker) : LatencyStats × LatencyTracker :=
  if t.samples.isEmpty then (⟨0, 0, 0, 0, 0, 0, 0, 0⟩, t)
  else
    let sum : Nat := t.samples.foldl (· + ·) 0
    let r50 := t.getPercentile 1 2
    let r90 := r50.2.getPercentile 9 10
    let r95 := r90.2.getPercentile 19 20
    let r99 := r95.2.getPercentile 99 100
    let r999 := r99.2.getPercentile 999 1000
    (⟨(sum : Rat) / (t.samples.length : Rat), r50.1, r90.1, r95.1, r99.1, r999.1,
      (t.samples.min?).getD 0, (t.samples.max?).getD 0⟩, r999.2)

/-- Cache coherence: whenever the validity flag is set, the shadow is the
ascending sort of the ring. -/
def LatencyTracker.WF (t : LatencyTracker) : Prop :=
  t.cache_valid = true →
    t.sorted_cache = t.samples.mergeSort (fun a b => decide (a ≤ b))

theorem WF_empty : LatencyTracker.empty.WF := by
  intro h
  cases h

theorem WF_record (t : LatencyTracker) (l : Nat) : (t.record l).WF := by
  intro h
  cases h

theorem WF_getPercentile (t : LatencyTracker) (pnum pden : Nat) (hwf : t.WF) :
    (t.getPercentile pnum pden).2.WF := by
  unfold LatencyTracker.getPercentile
  by_cases he : t.samples.isEmpty
  · rw [if_pos he]
    exact hwf
  · rw [if_neg he]
    by_cases hv : t.cache_valid
    · simp only [hv, if_true]
      exact hwf
    · simp only [hv, if_false]
      intro _
      rfl

/-! ## Theorems for claim C7 -/

theorem mul_div_le_self_of_le (m pn pd : Nat) (hd : 0 < pd) (hle : pn ≤ pd) :
    m * pn / pd ≤ m := by
  have h1 : m * pn ≤ m * pd := Nat.mul_le_mul_left m hle
  have h2 : m * pn / pd ≤ m * pd / pd := Nat.div_le_div_right h1
  rwa [Nat.mul_div_cancel _ hd] at h2

/-- C7: for a coherent tracker with a non-empty ring, the percentile query
at each of the five targets p ∈ {0.5, 0.9, 0.95, 0.99, 0.999} returns
element `floor((n - 1) * p)` of the ascending sort of the samples (an
in-range index), and on an empty ring every percentile — and the whole
stats snapshot: mean, percentiles, min, max — is zero. -/
theorem C7_latency_percentile_formula (t : LatencyTracker) (hwf : t.WF) :
    (∀ pn pd, (pn, pd) ∈ PERCENTILES → t.samples ≠ [] →
      (t.getPercentile pn pd).1
          = (t.samples.mergeSort (fun a b => decide (a ≤ b))).getD
              ((t.samples.length - 1) * pn / pd) 0
        ∧ (t.samples.length - 1) * pn / pd < t.samples.length)
    ∧ List.Sorted (· ≤ ·) (t.samples.mergeSort (fun a b => decide (a ≤ b)))
    ∧ (t.samples.mergeSort (fun a b => decide (a ≤ b))).Perm t.samples
    ∧ (∀ pn pd, t.samples = [] → (t.getPercentile pn pd).1 = 0)
    ∧ (t.samples = [] → (t.getStats).1 = ⟨0, 0, 0, 0, 0, 0, 0, 0⟩) := by
  refine ⟨?_, ?_, ?_, ?_, ?_⟩
  · intro pn pd hmem hne
    have hie : t.samples.isEmpty = false := by
      cases hs : t.samples with
      | nil => exact absurd hs hne
      | cons a l => rfl
    have hlenpos : 0 < t.samples.length := List.length_pos.mpr hne
    constructor
    · unfold LatencyTracker.getPercentile
      rw [if_neg (by rw [hie]; exact Bool.false_ne_true)]
      by_cases hv : t.cache_valid
      · simp only [hv, if_true]
        rw [hwf hv, List.length_mergeSort]
      · simp only [hv, Bool.false_eq_true, if_false]
        rw [List.length_mergeSort]
    · have hcases : (pn = 1 ∧ pd = 2) ∨ (pn = 9 ∧ pd = 10) ∨ (pn = 19 ∧ pd = 20)
          ∨ (pn = 99 ∧ pd = 100) ∨ (pn = 999 ∧ pd = 1000) := by
        simpa [PERCENTILES, Prod.ext_iff] using hmem
      have hbound : pn ≤ pd ∧ 0 < pd := by
        rcases hcases with ⟨h1, h2⟩ | ⟨h1, h2⟩ | ⟨h1, h2⟩ | ⟨h1, h2⟩ | ⟨h1, h2⟩ <;>
          rw [h1, h2] <;> exact ⟨by omega, by omega⟩
      have := mul_div_le_self_of_le (t.samples.length - 1) pn pd hbound.2 hbound.1
      omega
  · have hp := @List.sorted_mergeSort Nat (fun a b => decide (a ≤ b))
      (fun a b c h1 h2 => by
        simp only [decide_eq_true_eq] at h1 h2 ⊢
        omega)
      (fun a b => by
        simp only [Bool.or_eq_true, decide_eq_true_eq]
        omega)
      t.samples
    exact hp.imp (fun h => by simpa using h)
  · exact List.mergeSort_perm t.samples _
  · intro pn pd h
    unfold LatencyTracker.getPercentile
    rw [if_pos (by rw [h]; rfl)]
  · intro h
    unfold LatencyTracker.getStats
    rw [if_pos (by rw [h]; rfl)]

/-- Witness for C7: the tracker holding samples `[5, 3]` with a stale
cache; e.g. the median index is `(2 - 1) * 1 / 2 = 0` and the query returns
the sorted list's first element. -/
theorem C7_latency_percentile_formula_w :
    (∀ pn pd, (pn, pd) ∈ PERCENTILES →
      (⟨[5, 3], [], false⟩ : LatencyTracker).samples ≠ [] →
      ((⟨[5, 3], [], false⟩ : LatencyTracker).getPercentile pn pd).1
          = ((⟨[5, 3], [], false⟩ : LatencyTracker).samples.mergeSort
              (fun a b => decide (a ≤ b))).getD
              (((⟨[5, 3], [], false⟩ : LatencyTracker).samples.length - 1) * pn / pd) 0
        ∧ ((⟨[5, 3], [], false⟩ : LatencyTracker).samples.length - 1) * pn / pd
            < (⟨[5, 3], [], false⟩ : LatencyTracker).samples.length)
    ∧ List.Sorted (· ≤ ·) ((⟨[5, 3], [], false⟩ : LatencyTracker).samples.mergeSort
        (fun a b => decide (a ≤ b)))
    ∧ ((⟨[5, 3], [], false⟩ : LatencyTracker).samples.mergeSort
        (fun a b => decide (a ≤ b))).Perm
        (⟨[5, 3], [], false⟩ : LatencyTracker).samples
    ∧ (∀ pn pd, (⟨[5, 3], [], false⟩ : LatencyTracker).samples = [] →
        ((⟨[5, 3], [], false⟩ : LatencyTracker).getPercentile pn pd).1 = 0)
    ∧ ((⟨[5, 3], [], false⟩ : LatencyTracker).samples = [] →
        ((⟨[5, 3], [], false⟩ : LatencyTracker).getStats).1
          = ⟨0, 0, 0, 0, 0, 0, 0, 0⟩) :=
  C7_latency_percentile_formula ⟨[5, 3], [], false⟩ (by intro h; cases h)

end ShrivenQ
